import Mathlib

/-!
Verification of the `Commander` / `LocalnetHandle` subsystem of the trdelnik
repository (`crates/trdelnik/src/commander.rs`), as a shallow embedding.

Subprocess and filesystem effects are modelled by environments recording the
outcome of each external call; byte streams are abstracted by whether they
decode as UTF-8 text; `futures::future::try_join_all` is modelled with an
explicit temporal completion order of the joined futures; tokio's documented
drop semantics for subprocesses is modelled per call site: a bare `Child`
returned by `spawn()` is killed on drop iff `kill_on_drop` was set on the
command, while the future returned by `Command::output()` owns its child and
kills it when dropped before completion, regardless of that flag.
-/

namespace Trdelnik

/-- A captured subprocess stream (`Vec<u8>`), abstracted by whether it decodes
as UTF-8 text. -/
inductive Bytes where
  | valid (s : String)
  | invalid
deriving DecidableEq

/-- `enum Error` of `commander.rs`; payloads of external error types
(`io::Error`, `idl::Error`) are abstracted as strings. -/
inductive Error where
  | IoError (msg : String)
  | Utf8Error
  | LocalnetIsNotRunning
  | LocalnetIsStillRunning
  | BuildProgramsFailed
  | ReadProgramCodeFailed (text : String)
  | IdlError (msg : String)
deriving DecidableEq

/-- Discriminator for the generic I/O error variant. -/
def isIoErr : Error → Bool
  | .IoError _ => true
  | _ => false

/-- `String::from_utf8` applied to a captured stream: decoding failure is the
distinct `Utf8Error` (`FromUtf8Error` via `#[from]`). -/
def fromUtf8 : Bytes → Except Error String
  | .valid s => .ok s
  | .invalid => .error .Utf8Error

/-- Lift an external I/O outcome (`?` on an `io::Error`-returning call) into
`Error` via the `IoError` variant. -/
def liftIoErr : Except String α → Except Error α
  | .ok a => .ok a
  | .error e => .error (.IoError e)

/-- A `tokio::process::Command` as configured by the commander: program,
arguments, and the `kill_on_drop` flag. tokio's default is `false`, and
dropping a `Child` handle terminates the subprocess iff the flag was set. -/
structure Command where
  program : String
  args : List String
  kill_on_drop : Bool := false
deriving DecidableEq

/-- tokio drop semantics for a bare `Child` obtained from `spawn()`: dropping
the handle forcibly terminates the subprocess iff the command was configured
with `kill_on_drop(true)`. -/
def dropChildKills (c : Command) : Bool := c.kill_on_drop

/-- The build invocation of `build_programs`:
`cargo build-bpf -- -Z avoid-dev-deps`. -/
def buildCommand : Command :=
  { program := "cargo", args := ["build-bpf", "--", "-Z", "avoid-dev-deps"] }

/-- The formatter invocation: `rustfmt --edition 2018` with
`kill_on_drop(true)` set by the code. -/
def rustfmtCommand : Command :=
  { program := "rustfmt", args := ["--edition", "2018"], kill_on_drop := true }

/-- The network node invocation of `start_localnet`: the second argument is
`[&self.root, "config.yml"].concat()`, i.e. plain string concatenation of the
root and `"config.yml"` with no separator inserted. -/
def startCommand (root : String) : Command :=
  { program := "solana-test-validator",
    args := ["-C", root ++ "config.yml", "-r", "-q"] }

/-- Spec-side reading of the path `<root>/config.yml`: `config.yml` joined
under the directory `root`, inserting a path separator when `root` does not
already end in one. -/
def specConfigPath (root : String) : String :=
  if root.data.getLast? = some '/' then root ++ "config.yml"
  else root ++ "/config.yml"

/-- A workspace package from `cargo_metadata`: its name and the components of
its manifest path. -/
structure Package where
  name : String
  manifest_path : List String
deriving DecidableEq

/-- Rust `DoubleEndedIterator::nth_back`: `nth_back n` is the `n`-th element
counted from the end, so `nth_back 2` is the third-from-last component. -/
def nthBack (l : List α) (n : Nat) : Option α := l.reverse.get? n

/-- The package filter of `generate_program_client_lib_rs`: keep the name of
every package whose `manifest_path.iter().nth_back(2)` is `Some("programs")`. -/
def programNames (packages : List Package) : List String :=
  packages.filterMap fun package =>
    match nthBack package.manifest_path 2 with
    | some c => if c = "programs" then some package.name else none
    | none => none

/-- Spec-side reading of "the manifest path's third-from-last path segment":
the element at position `length - 3`, defined only for paths of at least three
components. -/
def thirdFromLast (l : List String) : Option String :=
  if 3 ≤ l.length then l.get? (l.length - 3) else none

/-- An extracted per-program interface description (`idl::IdlProgram`),
abstracted to its name and an opaque payload. -/
structure IdlProgram where
  name : String
  data : String
deriving DecidableEq

/-- `idl::Idl`: the aggregate interface description, an ordered sequence of
per-program descriptions. -/
structure Idl where
  programs : List IdlProgram
deriving DecidableEq

/-- A subprocess `Output`: exit-status success flag and the two captured
streams. -/
structure Output where
  status_success : Bool
  stdout : Bytes
  stderr : Bytes
deriving DecidableEq

/-- Environment for `generate_program_client_lib_rs`: the workspace metadata,
the outcome of each per-program expansion subprocess, the external IDL
extractor `idl::parse_to_idl_program`, the temporal completion order of the
concurrent chains (indices into the discovery-ordered list), the pure
generator `program_client_generator::generate_source_code`, the rustfmt
spawn-write-wait pipeline (input text to captured stdout), and the final file
write. -/
structure GenEnv where
  packages : List Package
  expandOutput : String → Except String Output
  parseIdl : String → String → Except String IdlProgram
  completionOrder : List Nat
  generate : Idl → String
  rustfmtRun : String → Except String Bytes
  writeFile : String → Except String Unit

/-- One expansion-and-extraction chain: the async closure of
`generate_program_client_lib_rs`. On a successful exit the captured stdout is
decoded and handed to the extractor; on a non-zero exit the captured stderr is
decoded and wrapped in `ReadProgramCodeFailed`. -/
def expandAndExtract (env : GenEnv) (name : String) : Except Error IdlProgram := do
  let output ← liftIoErr (env.expandOutput name)
  if output.status_success then do
    let code ← fromUtf8 output.stdout
    match env.parseIdl name code with
    | .ok p => .ok p
    | .error e => .error (.IdlError e)
  else do
    let error_text ← fromUtf8 output.stderr
    .error (.ReadProgramCodeFailed error_text)

/-- The chains handed to `try_join_all`, in discovery order. -/
def chains (env : GenEnv) : List (Except Error IdlProgram) :=
  (programNames env.packages).map (expandAndExtract env)

/-- The error of a chain's outcome, if any. -/
def errorOf : Option (Except Error α) → Option Error
  | some (.error e) => some e
  | _ => none

/-- The first error in temporal completion order among the joined futures. -/
def joinError (order : List Nat) (results : List (Except Error α)) : Option Error :=
  order.findSome? fun i => errorOf (results.get? i)

/-- Collect the values of the joined futures in input order. -/
def collectOk : List (Except Error α) → Except Error (List α)
  | [] => .ok []
  | r :: rs => do
    let a ← r
    let as ← collectOk rs
    pure (a :: as)

/-- `futures::future::try_join_all`: `order` is the temporal completion order
of the input futures (indices into `results`); the first future to complete
with an error short-circuits the join (remaining futures are dropped),
otherwise the values are collected in input order. -/
def tryJoinAll (order : List Nat) (results : List (Except Error α)) :
    Except Error (List α) :=
  match joinError order results with
  | some e => .error e
  | none => collectOk results

/-- The first chain error `try_join_all` observes in completion order. -/
def firstChainError (env : GenEnv) : Option Error :=
  joinError env.completionOrder (chains env)

/-- The assembler stage: join all chains and wrap the collected programs into
`Idl { programs }`. -/
def assembleIdl (env : GenEnv) : Except Error Idl :=
  (tryJoinAll env.completionOrder (chains env)).map Idl.mk

/-- The observable outcome of a successful codegen run: the assembled
interface description and the formatted text written to the output file. -/
structure GenResult where
  idl : Idl
  written : String
deriving DecidableEq

/-- `Commander::generate_program_client_lib_rs`: resolve programs, assemble
the IDL with a fail-fast join, generate the client source, pipe it through
rustfmt, decode the formatter's stdout and write it out. -/
def generate_program_client_lib_rs (env : GenEnv) : Except Error GenResult := do
  let idl ← assembleIdl env
  let program_client := env.generate idl
  let out ← liftIoErr (env.rustfmtRun program_client)
  let formatted ← fromUtf8 out
  let _ ← liftIoErr (env.writeFile formatted)
  pure ⟨idl, formatted⟩

/-- Environment for `build_programs`: the spawn outcome and the awaited exit
code of the build tool. -/
structure BuildEnv where
  spawn : Except String Unit
  exitCode : Except String Nat

/-- `Commander::build_programs`: spawn the build tool, await its exit, and map
a non-success status to `BuildProgramsFailed` (`.success()` is exit code 0). -/
def build_programs (env : BuildEnv) : Except Error Unit := do
  let _ ← liftIoErr env.spawn
  let code ← liftIoErr env.exitCode
  if code = 0 then pure () else .error .BuildProgramsFailed

/-- The externally visible actions of the localnet lifecycle operations. -/
inductive Effect where
  | spawnProc (c : Command)
  | probe (wait : Bool)
  | killProc
  | removeDirAll (path : String)
deriving DecidableEq

/-- `LocalnetHandle`: owns the validator `Child`; the model keeps the handle's
`kill_on_drop` configuration. -/
structure LocalnetHandle where
  child_kill_on_drop : Bool
deriving DecidableEq

/-- Environment for `start_localnet`: the spawn outcome and the readiness
probe `is_localnet_running(true)` (waiting/retrying internally). -/
structure StartEnv where
  spawn : Except String Unit
  is_localnet_running_wait : Bool

/-- `Commander::start_localnet`: spawn the validator, probe readiness with
`wait = true`; if not ready, signal `LocalnetIsNotRunning` (the spawned
process is merely dropped, never killed). Returns the result together with
the trace of performed effects. -/
def start_localnet (root : String) (env : StartEnv) :
    Except Error LocalnetHandle × List Effect :=
  let c := startCommand root
  match env.spawn with
  | .error e => (.error (.IoError e), [.spawnProc c])
  | .ok _ =>
    if env.is_localnet_running_wait then
      (.ok ⟨c.kill_on_drop⟩, [.spawnProc c, .probe true])
    else
      (.error .LocalnetIsNotRunning, [.spawnProc c, .probe true])

/-- Environment for `stop`: the `start_kill` outcome, the post-kill readiness
probe `is_localnet_running(false)` (non-waiting), and the outcome of removing
the ledger directory. -/
structure StopEnv where
  start_kill : Except String Unit
  is_localnet_running_nowait : Bool
  remove_dir_all : Except String Unit

/-- `LocalnetHandle::stop`: issue `start_kill`, probe readiness without
waiting; if still running, signal `LocalnetIsStillRunning` and leave the
ledger directory untouched; otherwise recursively delete `test-ledger`.
Returns the result together with the trace of performed effects. -/
def stop (env : StopEnv) : Except Error Unit × List Effect :=
  match env.start_kill with
  | .error e => (.error (.IoError e), [.killProc])
  | .ok _ =>
    if env.is_localnet_running_nowait then
      (.error .LocalnetIsStillRunning, [.killProc, .probe false])
    else
      match env.remove_dir_all with
      | .error e =>
          (.error (.IoError e), [.killProc, .probe false, .removeDirAll "test-ledger"])
      | .ok _ =>
          (.ok (), [.killProc, .probe false, .removeDirAll "test-ledger"])

end Trdelnik

open Trdelnik

deriving instance DecidableEq for Except

/-! ## Helper lemmas -/

@[simp] theorem exceptBind_ok (a : α) (f : α → Except ε β) :
    (Except.ok a : Except ε α) >>= f = f a := rfl

@[simp] theorem exceptBind_error (e : ε) (f : α → Except ε β) :
    (Except.error e : Except ε α) >>= f = Except.error e := rfl

@[simp] theorem exceptMap_ok (f : α → β) (a : α) :
    f <$> (Except.ok a : Except ε α) = Except.ok (f a) := rfl

@[simp] theorem exceptMap_error (f : α → β) (e : ε) :
    f <$> (Except.error e : Except ε α) = Except.error e := rfl

@[simp] theorem exceptPure (a : α) : (pure a : Except ε α) = Except.ok a := rfl

/-- `nth_back 2` on a path's components is its third-from-last segment. -/
theorem nthBack_two_eq_thirdFromLast (l : List String) :
    nthBack l 2 = thirdFromLast l := by
  unfold nthBack thirdFromLast
  by_cases h : 3 ≤ l.length
  · rw [if_pos h, List.get?_reverse (by omega)]
    have h3 : l.length - 1 - 2 = l.length - 3 := by omega
    rw [h3]
  · rw [if_neg h, List.get?_eq_none.mpr (by simp; omega)]

/-- A later pipeline stage never turns an assembly failure into success. -/
theorem generate_eq_error (env : GenEnv) (e : Trdelnik.Error)
    (h : assembleIdl env = .error e) :
    generate_program_client_lib_rs env = .error e := by
  unfold generate_program_client_lib_rs
  rw [h]
  rfl

/-- `collectOk` on an all-`ok` list returns exactly the payloads, in order. -/
theorem collectOk_eq_of_all_ok (l : List (Except Trdelnik.Error α))
    (hok : ∀ r ∈ l, ∃ p, r = .ok p) :
    collectOk l = .ok (l.filterMap Except.toOption)
      ∧ l = (l.filterMap Except.toOption).map Except.ok := by
  induction l with
  | nil => exact ⟨rfl, rfl⟩
  | cons r rs ih =>
    obtain ⟨p, rfl⟩ := hok r (List.mem_cons_self r rs)
    obtain ⟨h1, h2⟩ := ih fun r hr => hok r (List.mem_cons_of_mem _ hr)
    refine ⟨?_, ?_⟩
    · simp only [collectOk, h1, List.filterMap_cons, Except.toOption]
      rfl
    · simp only [List.filterMap_cons, Except.toOption, List.map_cons]
      exact congrArg _ h2

/-- `collectOk` succeeds only when every entry is `ok` with the returned
payloads, in order. -/
theorem collectOk_ok (l : List (Except Trdelnik.Error α)) (ps : List α)
    (h : collectOk l = .ok ps) : l = ps.map Except.ok := by
  induction l generalizing ps with
  | nil =>
    simp only [collectOk] at h
    cases h
    rfl
  | cons r rs ih =>
    cases r with
    | error e => simp [collectOk] at h
    | ok a =>
      cases hc : collectOk rs with
      | error e =>
        simp only [collectOk, hc, exceptBind_ok, exceptMap_error, exceptBind_error] at h
        cases h
      | ok as =>
        simp only [collectOk, hc, exceptBind_ok, exceptMap_ok, exceptPure,
          Except.ok.injEq] at h
        cases h
        simp [ih as hc]

/-- A successful join returns exactly the payloads of the input futures, in
input order. -/
theorem tryJoinAll_ok (order : List Nat) (l : List (Except Trdelnik.Error α))
    (ps : List α) (h : tryJoinAll order l = .ok ps) : l = ps.map Except.ok := by
  unfold tryJoinAll at h
  cases hj : joinError order l with
  | some e => rw [hj] at h; cases h
  | none => rw [hj] at h; exact collectOk_ok l ps h

/-- A successful assembly determines the join's value. -/
theorem assembleIdl_ok (env : GenEnv) (idl : Idl) (h : assembleIdl env = .ok idl) :
    tryJoinAll env.completionOrder (chains env) = .ok idl.programs := by
  unfold assembleIdl at h
  cases ht : tryJoinAll env.completionOrder (chains env) with
  | error e => rw [ht] at h; simp [Except.map] at h
  | ok ps =>
    rw [ht] at h
    simp only [Except.map, Except.ok.injEq] at h
    rw [← h]

/-! ## Claim theorems -/

/-- Claim C6: `programNames` returns exactly the names of the packages whose
manifest path's third-from-last segment equals the marker directory
`"programs"`; in particular, packages at `.../programs/a/Cargo.toml` and
`.../lib/b/Cargo.toml` yield `["a"]` only. -/
theorem programNames_marker_characterization :
    (∀ packages : List Package,
        programNames packages =
          (packages.filter fun p =>
            thirdFromLast p.manifest_path == some "programs").map Package.name)
    ∧ programNames
        [⟨"a", ["ws", "programs", "a", "Cargo.toml"]⟩,
         ⟨"b", ["ws", "lib", "b", "Cargo.toml"]⟩] = ["a"] := by
  refine ⟨?_, by decide⟩
  intro packages
  induction packages with
  | nil => rfl
  | cons p ps ih =>
    simp only [programNames] at ih ⊢
    rw [List.filterMap_cons, List.filter_cons, nthBack_two_eq_thirdFromLast]
    cases h : thirdFromLast p.manifest_path with
    | none => simpa [h] using ih
    | some c =>
      by_cases hc : c = "programs"
      · subst hc
        simpa [h] using congrArg (List.cons p.name) ih
      · simpa [h, hc] using ih

/-- Claim C7 counterexample: constructed with root `"abc"`, the argument
passed after `-C` is `"abcconfig.yml"`, which is not the path
`<root>/config.yml` (that is, `"abc/config.yml"`). -/
theorem startCommand_config_arg_counterexample :
    (startCommand "abc").args = ["-C", "abcconfig.yml", "-r", "-q"]
    ∧ specConfigPath "abc" = "abc/config.yml"
    ∧ ("abcconfig.yml" : String) ≠ "abc/config.yml" := by
  refine ⟨by decide, ?_, by decide⟩
  rw [specConfigPath, if_neg (by decide)]
  decide

/-- Claim C7 (amended): the config argument is the plain concatenation
`root ++ "config.yml"` with no separator inserted, so for every root ending
in a path separator (as the default root `"../../"` does) `start_localnet`
passes `-C <root>/config.yml`. -/
theorem startCommand_config_arg_amended (root : String)
    (h : root.data.getLast? = some '/') :
    (startCommand root).args = ["-C", specConfigPath root, "-r", "-q"] := by
  rw [specConfigPath, if_pos h]
  rfl

/-- Witness for the amended claim C7 at the default root `"../../"`. -/
theorem startCommand_config_arg_amended_witness :
    (startCommand "../../").args = ["-C", specConfigPath "../../", "-r", "-q"] :=
  startCommand_config_arg_amended "../../" (by decide)

/-- Claim C9: with the build tool spawned successfully, a non-zero exit code
yields exactly `BuildProgramsFailed` and exit code 0 yields success with no
value. -/
theorem build_programs_exit (env : BuildEnv) (code : Nat)
    (hs : env.spawn = .ok ()) (hw : env.exitCode = .ok code) :
    (code ≠ 0 → build_programs env = .error .BuildProgramsFailed)
    ∧ (code = 0 → build_programs env = .ok ()) := by
  unfold build_programs
  rw [hs, hw]
  constructor <;> intro hc <;> simp [liftIoErr, hc]

/-- Environment for the claim C9 witness: spawn succeeds, exit code 1. -/
def buildEnvW : BuildEnv := { spawn := .ok (), exitCode := .ok 1 }

/-- Witness for claim C9 at exit code 1. -/
theorem build_programs_exit_witness :
    (1 ≠ 0 → build_programs buildEnvW = .error .BuildProgramsFailed)
    ∧ (1 = 0 → build_programs buildEnvW = .ok ()) :=
  build_programs_exit buildEnvW 1 rfl rfl

/-- Claim C2: after a successful kill signal, `stop` invokes the recursive
deletion of the ledger directory exactly when the non-waiting post-kill probe
reports the process not alive; when the probe reports it still alive, `stop`
signals `LocalnetIsStillRunning` (so the ledger directory is left untouched),
and when it reports not-alive and the deletion succeeds, `stop` succeeds. -/
theorem stop_ledger_iff_not_alive (env : StopEnv) (hk : env.start_kill = .ok ()) :
    (Effect.removeDirAll "test-ledger" ∈ (stop env).2
      ↔ env.is_localnet_running_nowait = false)
    ∧ (env.is_localnet_running_nowait = true →
        (stop env).1 = .error .LocalnetIsStillRunning)
    ∧ (env.is_localnet_running_nowait = false → env.remove_dir_all = .ok () →
        (stop env).1 = .ok ()) := by
  unfold stop
  rw [hk]
  cases hb : env.is_localnet_running_nowait
  · cases hr : env.remove_dir_all <;> simp
  · simp

/-- Environment for the claim C2 witness: kill succeeds, probe still reports
the process alive. -/
def stopEnvW : StopEnv :=
  { start_kill := .ok (), is_localnet_running_nowait := true,
    remove_dir_all := .ok () }

/-- Witness for claim C2: with the probe reporting still-alive, the ledger
directory is not deleted and `LocalnetIsStillRunning` is signaled. -/
theorem stop_ledger_iff_not_alive_witness :
    (Effect.removeDirAll "test-ledger" ∈ (stop stopEnvW).2
      ↔ stopEnvW.is_localnet_running_nowait = false)
    ∧ (stopEnvW.is_localnet_running_nowait = true →
        (stop stopEnvW).1 = .error .LocalnetIsStillRunning)
    ∧ (stopEnvW.is_localnet_running_nowait = false →
        stopEnvW.remove_dir_all = .ok () → (stop stopEnvW).1 = .ok ()) :=
  stop_ledger_iff_not_alive stopEnvW rfl

/-- Claim C5: when the validator spawns but the waiting readiness probe
reports not ready, `start_localnet` signals `LocalnetIsNotRunning`, returns no
handle, and never kills the spawned process in this path (no kill effect is
performed, and the validator command's `kill_on_drop` is unset, so dropping
the handle leaves the process running). -/
theorem start_localnet_not_ready (root : String) (env : StartEnv)
    (hs : env.spawn = .ok ()) (hp : env.is_localnet_running_wait = false) :
    (start_localnet root env).1 = .error .LocalnetIsNotRunning
    ∧ Effect.killProc ∉ (start_localnet root env).2
    ∧ dropChildKills (startCommand root) = false := by
  unfold start_localnet
  rw [hs, hp]
  simp [dropChildKills, startCommand]

/-- Environment for the claim C5 witness: spawn succeeds, waiting probe
reports not ready. -/
def startEnvW : StartEnv := { spawn := .ok (), is_localnet_running_wait := false }

/-- Witness for claim C5 at the default root `"../../"`. -/
theorem start_localnet_not_ready_witness :
    (start_localnet "../../" startEnvW).1 = .error .LocalnetIsNotRunning
    ∧ Effect.killProc ∉ (start_localnet "../../" startEnvW).2
    ∧ dropChildKills (startCommand "../../") = false :=
  start_localnet_not_ready "../../" startEnvW rfl rfl

/-- Claim C4: when a program's expansion subprocess exits with non-zero
status, the chain signals `ReadProgramCodeFailed` carrying the captured
standard error decoded as text verbatim — not a generic I/O error — and a
text-decoding failure of the captured stream yields the distinct `Utf8Error`
instead. -/
theorem expand_failure_payload (env : GenEnv) (name : String) (o : Output)
    (t : String) (h1 : env.expandOutput name = .ok o)
    (h2 : o.status_success = false) :
    (o.stderr = .valid t →
        expandAndExtract env name = .error (.ReadProgramCodeFailed t)
        ∧ isIoErr (.ReadProgramCodeFailed t) = false)
    ∧ (o.stderr = .invalid →
        expandAndExtract env name = .error .Utf8Error
        ∧ Trdelnik.Error.Utf8Error ≠ .ReadProgramCodeFailed t) := by
  unfold expandAndExtract
  rw [h1]
  constructor <;> intro hst <;>
    simp [liftIoErr, h2, hst, fromUtf8, isIoErr]

/-- Environment for the claim C4 witness: the expansion subprocess fails with
stderr `error[E0000]: bad`. -/
def envExpandFailW : GenEnv :=
  { packages := [],
    expandOutput := fun _ => .ok ⟨false, .valid "", .valid "error[E0000]: bad"⟩,
    parseIdl := fun _ _ => .error "unused",
    completionOrder := [],
    generate := fun _ => "",
    rustfmtRun := fun s => .ok (.valid s),
    writeFile := fun _ => .ok () }

/-- Witness for claim C4: stderr `error[E0000]: bad` yields
`ReadProgramCodeFailed "error[E0000]: bad"`. -/
theorem expand_failure_payload_witness :
    ((Trdelnik.Bytes.valid "error[E0000]: bad" : Bytes) = .valid "error[E0000]: bad" →
        expandAndExtract envExpandFailW "p"
          = .error (.ReadProgramCodeFailed "error[E0000]: bad")
        ∧ isIoErr (.ReadProgramCodeFailed "error[E0000]: bad") = false)
    ∧ ((Trdelnik.Bytes.valid "error[E0000]: bad" : Bytes) = .invalid →
        expandAndExtract envExpandFailW "p" = .error .Utf8Error
        ∧ Trdelnik.Error.Utf8Error ≠ .ReadProgramCodeFailed "error[E0000]: bad") :=
  expand_failure_payload envExpandFailW "p"
    ⟨false, .valid "", .valid "error[E0000]: bad"⟩ "error[E0000]: bad" rfl rfl

/-- Claim C1: when some expansion-and-extraction chain fails (here, the `i`-th)
and every chain index eventually appears in the completion order, the run
observes a first error in completion order and
`generate_program_client_lib_rs` completes with exactly that error — it never
returns a successful result, so no partial IDL is produced. -/
theorem generate_fail_fast (env : GenEnv) (i : Nat) (e : Trdelnik.Error)
    (hcov : ∀ j, j < (chains env).length → j ∈ env.completionOrder)
    (hi : (chains env).get? i = some (.error e)) :
    (firstChainError env).isSome = true
    ∧ generate_program_client_lib_rs env
        = .error ((firstChainError env).getD e) := by
  have hilen : i < (chains env).length := by
    rcases List.get?_eq_some.mp hi with ⟨h, _⟩
    exact h
  have hsome : (firstChainError env).isSome = true := by
    rw [firstChainError, joinError]
    cases hfs : List.findSome? (fun j => errorOf ((chains env).get? j))
        env.completionOrder with
    | some e' => rfl
    | none =>
      exfalso
      have hnone := List.findSome?_eq_none.mp hfs i (hcov i hilen)
      rw [hi] at hnone
      simp [errorOf] at hnone
  refine ⟨hsome, ?_⟩
  obtain ⟨e', he'⟩ := Option.isSome_iff_exists.mp hsome
  have hj : joinError env.completionOrder (chains env) = some e' := he'
  have hjoin : tryJoinAll env.completionOrder (chains env) = .error e' := by
    unfold tryJoinAll
    rw [hj]
  have hassemble : assembleIdl env = .error e' := by
    rw [assembleIdl, hjoin]
    rfl
  rw [he', generate_eq_error env e' hassemble]
  rfl

/-- Environment for the claim C1 witness: two discovered programs; program
`"b"` fails expansion with stderr `boom` and completes first. -/
def envFailW : GenEnv :=
  { packages := [⟨"a", ["ws", "programs", "a", "Cargo.toml"]⟩,
                 ⟨"b", ["ws", "programs", "b", "Cargo.toml"]⟩],
    expandOutput := fun n =>
      if n = "b" then .ok ⟨false, .valid "", .valid "boom"⟩
      else .ok ⟨true, .valid "code", .valid ""⟩,
    parseIdl := fun n _ => .ok ⟨n, "idl"⟩,
    completionOrder := [1, 0],
    generate := fun _ => "client",
    rustfmtRun := fun s => .ok (.valid s),
    writeFile := fun _ => .ok () }

/-- Witness for claim C1: with chain 1 failing first, the whole run errors. -/
theorem generate_fail_fast_witness :
    (firstChainError envFailW).isSome = true
    ∧ generate_program_client_lib_rs envFailW
        = .error ((firstChainError envFailW).getD (.ReadProgramCodeFailed "boom")) :=
  generate_fail_fast envFailW 1 (.ReadProgramCodeFailed "boom")
    (by decide) (by decide)

/-- Claim C3: when every expansion-and-extraction chain succeeds, the
assembler returns an `Idl` whose program sequence consists of exactly one
entry per discovered program — the chains' payloads with no duplicates and no
omissions, one for each resolved program name. -/
theorem assembleIdl_all_ok (env : GenEnv)
    (hok : ∀ r ∈ chains env, ∃ p, r = .ok p) :
    assembleIdl env = .ok ⟨(chains env).filterMap Except.toOption⟩
    ∧ chains env = ((chains env).filterMap Except.toOption).map Except.ok
    ∧ ((chains env).filterMap Except.toOption).length
        = (programNames env.packages).length := by
  have hnone : joinError env.completionOrder (chains env) = none := by
    rw [joinError]
    apply List.findSome?_eq_none.mpr
    intro j hj
    cases hg : (chains env).get? j with
    | none => simp [errorOf, hg]
    | some r =>
      obtain ⟨p, rfl⟩ := hok r (List.get?_mem hg)
      simp [errorOf, hg]
  obtain ⟨h1, h2⟩ := collectOk_eq_of_all_ok (chains env) hok
  have hjoin : tryJoinAll env.completionOrder (chains env)
      = .ok ((chains env).filterMap Except.toOption) := by
    unfold tryJoinAll
    rw [hnone, h1]
  refine ⟨?_, h2, ?_⟩
  · rw [assembleIdl, hjoin]
    rfl
  · have hl := congrArg List.length h2
    rw [List.length_map] at hl
    rw [← hl, chains, List.length_map]

/-- Environment for the claim C3 and C10 witnesses: two discovered programs,
both chains succeeding, completing out of discovery order. -/
def envOkW : GenEnv :=
  { packages := [⟨"a", ["ws", "programs", "a", "Cargo.toml"]⟩,
                 ⟨"b", ["ws", "programs", "b", "Cargo.toml"]⟩],
    expandOutput := fun n => .ok ⟨true, .valid ("code-" ++ n), .valid ""⟩,
    parseIdl := fun n _ => .ok ⟨n, "idl"⟩,
    completionOrder := [1, 0],
    generate := fun _ => "client",
    rustfmtRun := fun s => .ok (.valid s),
    writeFile := fun _ => .ok () }

/-- Witness for claim C3 on a two-program workspace with both chains ok. -/
theorem assembleIdl_all_ok_witness :
    assembleIdl envOkW = .ok ⟨(chains envOkW).filterMap Except.toOption⟩
    ∧ chains envOkW = ((chains envOkW).filterMap Except.toOption).map Except.ok
    ∧ ((chains envOkW).filterMap Except.toOption).length
        = (programNames envOkW.packages).length :=
  assembleIdl_all_ok envOkW (by
    intro r hr
    have hch : chains envOkW = [.ok ⟨"a", "idl"⟩, .ok ⟨"b", "idl"⟩] := by decide
    rw [hch] at hr
    rcases List.mem_cons.mp hr with h | h
    · exact ⟨_, h⟩
    · rcases List.mem_cons.mp h with h | h
      · exact ⟨_, h⟩
      · exact absurd h (List.not_mem_nil r))

/-- Claim C10: on every successful run, the sequence of `IdlProgram`s in the
assembled `Idl` is in discovery order — the `i`-th entry is the payload of the
`i`-th resolved program's chain — with one entry per discovered program,
regardless of the temporal completion order of the concurrent chains. -/
theorem generate_ok_discovery_order (env : GenEnv) (res : GenResult)
    (h : generate_program_client_lib_rs env = .ok res) :
    chains env = res.idl.programs.map Except.ok
    ∧ res.idl.programs.length = (programNames env.packages).length := by
  have hA : assembleIdl env = .ok res.idl := by
    cases hA : assembleIdl env with
    | error e =>
      rw [generate_eq_error env e hA] at h
      cases h
    | ok idl =>
      simp only [generate_program_client_lib_rs, hA, exceptBind_ok] at h
      cases hf : env.rustfmtRun (env.generate idl) with
      | error e => rw [hf] at h; simp [liftIoErr] at h
      | ok out =>
        rw [hf] at h
        simp only [liftIoErr, exceptBind_ok] at h
        cases out with
        | invalid => simp [fromUtf8] at h
        | valid s =>
          simp only [fromUtf8, exceptBind_ok] at h
          cases hw : env.writeFile s with
          | error e =>
            rw [hw] at h
            simp at h
          | ok u =>
            rw [hw] at h
            simp only [exceptBind_ok, exceptPure, Except.ok.injEq] at h
            rw [← h]
  have hjoin := assembleIdl_ok env res.idl hA
  have hch := tryJoinAll_ok env.completionOrder (chains env) res.idl.programs hjoin
  refine ⟨hch, ?_⟩
  have hl := congrArg List.length hch
  rw [List.length_map] at hl
  rw [← hl, chains, List.length_map]

/-- The result of the claim C10 witness run. -/
def genResW : GenResult :=
  { idl := ⟨[⟨"a", "idl"⟩, ⟨"b", "idl"⟩]⟩, written := "client" }

/-- Witness for claim C10: completion order `[1, 0]` still yields the
discovery-ordered sequence `a, b`. -/
theorem generate_ok_discovery_order_witness :
    chains envOkW = genResW.idl.programs.map Except.ok
    ∧ genResW.idl.programs.length = (programNames envOkW.packages).length :=
  generate_ok_discovery_order envOkW genResW (by decide)
